import Mathlib

/-!
Verification of the AWS Managed Blockchain provider
(src/src.ts/providers/provider-aws.ts).

The file embeds the provider's logic in Lean: the pure functions are
translated directly; the external collaborators that the source imports
(the ethers FetchRequest / Network / assertArgument utilities, the AWS
SDK credential discovery, and the SigV4 signing library) are modelled
from the specification at their interface boundary, as the spec
prescribes (spec sections 4.4 and 6).

JavaScript truthiness matters in several places (`if (billingToken)`,
`if (!nodeId)`): an absent value and the empty string are both falsy.
Optional strings are embedded as `Option String` with an explicit
truthiness test.
-/

namespace AwsSpec

/-- AWS credentials: opaque to this system beyond being handed to the
signing function (spec section 3). -/
structure Credentials where
  accessKeyId : String
  secretAccessKey : String
  sessionToken : Option String
deriving Repr, DecidableEq

/-- A resolved network: canonical name plus chain id (spec section 3,
NetworkIdentity). -/
structure Network where
  name : String
  chainId : Nat
deriving Repr, DecidableEq

/-- A network identifier as supplied by the caller: a name or a chain id
(the ethers Networkish union type). -/
inductive Networkish where
  | name (s : String)
  | chainId (n : Nat)
deriving Repr, DecidableEq

/-- NodeLocation: identifies a specific managed-node deployment
(spec section 3). -/
structure NodeLocation where
  nodeId : String
  nodeRegion : String
deriving Repr, DecidableEq

/-- Errors raised by the provider.  `argument` embeds the ethers
assertArgument failure (a message, the labeled argument name and the
offending value, spec section 6); `generic` embeds a plain thrown Error. -/
inductive AwsError where
  | argument (message : String) (argName : String) (argValue : String)
  | generic (message : String)
deriving Repr, DecidableEq

/-- JavaScript truthiness for an optional string: undefined and the empty
string are falsy, every other string is truthy. -/
def truthy : Option String → Bool
  | none => false
  | some s => s ≠ ""

/-- Modelled from the spec: the network-identity registry consulted by
Network.from, which lives in the repository outside src/ (spec section
4.6 step 1 and section 6).  The enumerated networks are the four the
source documents: mainnet, goerli, matic, matic-mumbai. -/
def networkRegistry : List Network :=
  [⟨"mainnet", 1⟩, ⟨"goerli", 5⟩, ⟨"matic", 137⟩, ⟨"matic-mumbai", 80001⟩]

/-- Modelled from the spec: Network.from — normalizes a caller-supplied
identifier through the registry, failing with an argument error if the
identifier is unrecognized (spec section 4.6 step 1). -/
def Network.fromNetworkish : Networkish → Except AwsError Network
  | .name s =>
    match networkRegistry.find? (fun n => n.name = s) with
    | some n => .ok n
    | none => .error (.argument "unknown network" "network" s)
  | .chainId c =>
    match networkRegistry.find? (fun n => n.chainId = c) with
    | some n => .ok n
    | none => .error (.argument "unknown network" "network" (toString c))

/-- Translation of getCommunityAmbNodeProps: a switch on the network name
in which every enumerated case raises assertArgument with the
"no community node found" message and the default case raises the
distinct "Unsupported network" error.  No branch returns. -/
def getCommunityAmbNodeProps (network : Network) : Except AwsError NodeLocation :=
  match network.name with
  | "mainnet" =>
    .error (.argument "No Amazon Managed Blockchain community node found for network"
      "network.name" network.name)
  | "goerli" =>
    .error (.argument "No Amazon Managed Blockchain community node found for network"
      "network.name" network.name)
  | "matic" =>
    .error (.argument "No Amazon Managed Blockchain community node found for network"
      "network.name" network.name)
  | "matic-mumbai" =>
    .error (.argument "No Amazon Managed Blockchain community node found for network"
      "network.name" network.name)
  | _ =>
    .error (.argument "Unsupported network" "network.name" network.name)

/-- Translation of getAmbNodeUrl: the endpoint URL template, with the
billing token appended only when it is truthy (JavaScript
`if (billingToken)` — the empty string is falsy). -/
def getAmbNodeUrl (nodeId nodeRegion : String) (billingToken : Option String) : String :=
  let url := "https://" ++ nodeId ++ ".ethereum.managedblockchain." ++ nodeRegion
    ++ ".amazonaws.com"
  if truthy billingToken then url ++ "?billingToken=" ++ billingToken.getD "" else url

/-- Modelled from the spec: the ethers FetchRequest — a request-template
abstraction supporting URL, method, headers (settable, case-insensitive
keys) and body (spec sections 3 and 6).  The header store is keyed by the
lowercased header name.  The body carries the request bytes, here already
as the text the TextDecoder would produce. -/
structure FetchRequest where
  url : String
  method : String
  body : Option String
  headers : String → Option String

/-- Character-wise lowercasing of a header name (the case normalization
ethers applies to header keys). -/
def lowerString (s : String) : String := ⟨s.data.map Char.toLower⟩

/-- Modelled from the spec: FetchRequest.setHeader stores a header under
its case-normalized (lowercased) name, replacing any previous value. -/
def FetchRequest.setHeader (req : FetchRequest) (key value : String) : FetchRequest :=
  { req with headers := fun k => if k = lowerString key then some value else req.headers k }

/-- Modelled from the spec: a fresh FetchRequest for a URL, with no body
and no headers. -/
def FetchRequest.new (url : String) : FetchRequest :=
  { url := url, method := "GET", body := none, headers := fun _ => none }

/-- The components of a parsed URL that the preflight hook reads from the
WHATWG URL parser: protocol, hostname, host, pathname. -/
structure ParsedUrl where
  protocol : String
  hostname : String
  host : String
  pathname : String
deriving Repr, DecidableEq

/-- Modelled from the spec: the URL parser (new URL(...)) at the interface
the hook uses.  The scheme runs up to the first colon; the authority runs
up to the first slash or question mark; the pathname is what remains
before the query, defaulting to the root path. -/
def parseUrl (url : String) : ParsedUrl :=
  let protocol := url.takeWhile (fun c => c ≠ ':') ++ ":"
  let rest := (url.dropWhile (fun c => c ≠ ':')).drop 3
  let host := rest.takeWhile (fun c => c ≠ '/' && c ≠ '?')
  let afterHost := rest.drop host.length
  let path := afterHost.takeWhile (fun c => c ≠ '?')
  { protocol := protocol
    hostname := host.takeWhile (fun c => c ≠ ':')
    host := host
    pathname := if path = "" then "/" else path }

/-- The AWS HTTP request options handed to the signing library: protocol,
hostname, method, headers, path, body (source lines 152-161). -/
structure HttpRequest where
  protocol : String
  hostname : String
  method : String
  headers : List (String × String)
  path : String
  body : Option String
deriving Repr, DecidableEq

/-- A decimal digit as a character. -/
def digitChar (d : Nat) : Char := Char.ofNat (48 + d)

/-- Modelled from the spec: the rendering of the signing timestamp into
the signed-date header.  The exact format belongs to the external signing
library; what matters is that distinct instants render distinctly. -/
def amzDateString (t : Nat) : String :=
  ⟨((Nat.digits 10 t).map digitChar).reverse⟩

/-- Modelled from the spec: the content digest the signing library
computes over the (possibly absent) body.  The hash primitive is out of
scope (spec section 1); the model keeps its input dependence. -/
def contentHash (body : Option String) : String :=
  "sha256:" ++ body.getD ""

/-- Modelled from the spec: the HMAC-chain signature the library derives
from the canonical request, the credential, the region, the service and
the signing timestamp (spec section 4.4 step 4).  The cryptographic
chaining is out of scope; the model keeps every input the signature
depends on, the timestamp last. -/
def sigv4Signature (creds : Credentials) (region service : String)
    (req : HttpRequest) (t : Nat) : String :=
  "hmac-sha256:" ++ creds.secretAccessKey ++ ":" ++ region ++ ":" ++ service
    ++ ":" ++ req.method ++ ":" ++ req.hostname ++ ":" ++ req.path ++ ":"
    ++ req.body.getD "" ++ ":" ++ amzDateString t

/-- Modelled from the spec: the authorization header value, carrying the
credential scope and the signature (spec section 4.4 step 4). -/
def sigv4AuthValue (creds : Credentials) (region service : String)
    (req : HttpRequest) (t : Nat) : String :=
  "AWS4-HMAC-SHA256 Credential=" ++ creds.accessKeyId ++ "/" ++ region ++ "/"
    ++ service ++ "/aws4_request, SignedHeaders=host, Signature="
    ++ sigv4Signature creds region service req t

/-- Modelled from the spec: SignatureV4.sign — returns the request with
the signature-related headers added to its header mapping: the
signed-date header, the content-hash header, the authorization header,
and the session-token header when the credentials carry one
(spec section 4.4 step 4). -/
def sigv4Sign (creds : Credentials) (region service : String)
    (req : HttpRequest) (t : Nat) : HttpRequest :=
  { req with
    headers := req.headers
      ++ [("x-amz-date", amzDateString t),
          ("x-amz-content-sha256", contentHash req.body),
          ("authorization", sigv4AuthValue creds region service req t)]
      ++ (match creds.sessionToken with
          | some tok => [("x-amz-security-token", tok)]
          | none => []) }

/-- Translation of the requestOptions construction inside preflightFunc
(source lines 152-161): only the URL components, the method and the body
of the FetchRequest are read; the initial header set holds exactly the
host header derived from the URL. -/
def requestOptionsOf (ethersRequest : FetchRequest) : HttpRequest :=
  let urlParser := parseUrl ethersRequest.url
  { protocol := urlParser.protocol
    hostname := urlParser.hostname
    method := ethersRequest.method
    headers := [("host", urlParser.host)]
    path := urlParser.pathname
    body := ethersRequest.body }

/-- The headers the signing step returns for a FetchRequest at signing
time: the header mapping of the signed AWS request (source line 183). -/
def signedAwsHeaders (credentials : Credentials) (nodeRegion : String)
    (ethersRequest : FetchRequest) (now : Nat) : List (String × String) :=
  (sigv4Sign credentials nodeRegion "managedblockchain"
    (requestOptionsOf ethersRequest) now).headers

/-- Translation of preflightFunc (source lines 148-189): build the AWS
request options from the FetchRequest, sign them with the captured
credentials and region at the current wall-clock instant, and merge every
signed header into the FetchRequest via setHeader.  The clock read
(new Date()) is an explicit parameter. -/
def preflightFunc (credentials : Credentials) (nodeRegion : String)
    (ethersRequest : FetchRequest) (now : Nat) : FetchRequest :=
  (signedAwsHeaders credentials nodeRegion ethersRequest now).foldl
    (fun r kv => r.setHeader kv.1 kv.2) ethersRequest

/-- The request template getFetchRequest returns: the FetchRequest bound
to the endpoint URL together with the installed pre-dispatch hook. -/
structure SignedRequestTemplate where
  request : FetchRequest
  preflight : FetchRequest → Nat → FetchRequest

/-- Translation of AwsProvider.getFetchRequest (source lines 129-192):
builds the FetchRequest on the endpoint URL and installs preflightFunc
with the given credentials and region. -/
def getFetchRequest (credentials : Credentials) (nodeId nodeRegion : String)
    (billingToken : Option String) : SignedRequestTemplate :=
  { request := FetchRequest.new (getAmbNodeUrl nodeId nodeRegion billingToken)
    preflight := preflightFunc credentials nodeRegion }

/-- The error message thrown when the AWS SDK finds no credentials
(source lines 123-126). -/
def awsCredentialsNotFoundMessage : String :=
  "AWS Credentials not found by the AWS SDK. To learn how to set AWS credentials "
    ++ "for your environment, please visit "
    ++ "https://docs.aws.amazon.com/sdk-for-javascript/v2/developer-guide/setting-credentials-node.html"

/-- Translation of AwsProvider.getDefaultAwsCredentials (source lines
117-127): consult the ambient AWS environment (here an explicit
parameter); return the discovered credentials, or throw the documented
error when none are found. -/
def getDefaultAwsCredentials (env : Option Credentials) : Except AwsError Credentials :=
  match env with
  | some credentials => .ok credentials
  | none => .error (.generic awsCredentialsNotFoundMessage)

/-- The constructor inputs (the AwsProviderProps type, with the node
coordinates optional as the runtime checks allow). -/
structure AwsProviderProps where
  nodeId : Option String
  nodeRegion : Option String
  billingToken : Option String
  network : Option Networkish
  credentials : Option Credentials

/-- The read-only aws attribute recorded by the constructor, together
with the pinned static network. -/
structure AwsProviderState where
  nodeRegion : String
  nodeId : String
  nodeHttpEndpoint : String
  credentials : Credentials
  network : Network
deriving Repr, DecidableEq

/-- Translation of the AwsProvider constructor (source lines 194-252):
default the network to mainnet and normalize it; check the node
coordinates by truthiness (nodeId falsy with nodeRegion truthy, then
nodeId truthy with nodeRegion falsy, then both falsy delegating to the
community-node lookup); resolve credentials, falling back to the ambient
environment; build the request template; record the final state. -/
def constructAws (props : AwsProviderProps) (env : Option Credentials) :
    Except AwsError AwsProviderState := do
  let networkish := props.network.getD (.name "mainnet")
  let network ← Network.fromNetworkish networkish
  let loc : NodeLocation ←
    if ¬ truthy props.nodeId ∧ truthy props.nodeRegion then
      .error (.argument "nodeId required with nodeRegion" "nodeId"
        (props.nodeId.getD ""))
    else if truthy props.nodeId ∧ ¬ truthy props.nodeRegion then
      .error (.argument "nodeRegion required with nodeId" "nodeRegion"
        (props.nodeRegion.getD ""))
    else if ¬ truthy props.nodeId then
      getCommunityAmbNodeProps network
    else
      pure ⟨props.nodeId.getD "", props.nodeRegion.getD ""⟩
  let credentials ←
    match props.credentials with
    | some c => pure c
    | none => getDefaultAwsCredentials env
  let template := getFetchRequest credentials loc.nodeId loc.nodeRegion props.billingToken
  pure { nodeRegion := loc.nodeRegion
         nodeId := loc.nodeId
         nodeHttpEndpoint := template.request.url
         credentials := credentials
         network := network }

/-- The result of AwsProvider._getProvider: either a derived AwsProvider,
or the base transport's generic provider for the chain (the fallback
taken when derivation throws, source lines 254-267). -/
inductive DerivedProvider where
  | aws (state : AwsProviderState)
  | fallback (chainId : Nat)
deriving Repr, DecidableEq

/-- Translation of AwsProvider._getProvider (source lines 254-267): try
to construct a sibling AwsProvider on the requested chain id reusing this
instance's node coordinates and credentials; if construction throws, log
and fall back to the base transport's generic provider. -/
def getProviderForChain (state : AwsProviderState) (env : Option Credentials)
    (chainId : Nat) : DerivedProvider :=
  match constructAws
    { network := some (.chainId chainId)
      nodeId := some state.nodeId
      nodeRegion := some state.nodeRegion
      billingToken := none
      credentials := some state.credentials } env with
  | .ok s => .aws s
  | .error _ => .fallback chainId

/-- A concrete outbound request with a pre-existing non-signature header,
used to instantiate the header-effect theorems. -/
def sampleRequest : FetchRequest :=
  { url := "https://n1.ethereum.managedblockchain.r1.amazonaws.com"
    method := "POST"
    body := some "payload"
    headers := fun k => if k = "content-type" then some "application/json" else none }

/-- The same request as sampleRequest with a different pre-existing
header set. -/
def sampleRequestOtherHeaders : FetchRequest :=
  { sampleRequest with
    headers := fun k => if k = "accept" then some "application/json" else none }

/-! ### Helper lemmas -/

/-- Decoder for the digit rendering used by the signed-date model. -/
def decodeDigits : List Char → Nat
  | [] => 0
  | c :: cs => (c.toNat - 48) + 10 * decodeDigits cs

theorem decodeDigits_map_digitChar (L : List Nat) (h : ∀ d ∈ L, d < 10) :
    decodeDigits (L.map digitChar) = Nat.ofDigits 10 L := by
  induction L with
  | nil => rfl
  | cons d t ih =>
    have hd : d < 10 := h d (List.mem_cons_self d t)
    have hc : (digitChar d).toNat = 48 + d := by
      interval_cases d <;> rfl
    have ht := ih (fun x hx => h x (List.mem_cons_of_mem d hx))
    simp only [List.map_cons, decodeDigits, hc, ht, Nat.ofDigits_cons]
    omega

theorem amzDateString_injective : Function.Injective amzDateString := by
  intro t1 t2 h
  have hdata : ((Nat.digits 10 t1).map digitChar).reverse
      = ((Nat.digits 10 t2).map digitChar).reverse := congrArg String.data h
  have h2 := List.reverse_injective hdata
  have h3 := congrArg decodeDigits h2
  rw [decodeDigits_map_digitChar _ (fun d hd => Nat.digits_lt_base (by norm_num) hd),
      decodeDigits_map_digitChar _ (fun d hd => Nat.digits_lt_base (by norm_num) hd),
      Nat.ofDigits_digits, Nat.ofDigits_digits] at h3
  exact h3

theorem string_append_left_cancel {a b c : String} (h : a ++ b = a ++ c) : b = c := by
  have hd := congrArg String.data h
  rw [String.data_append, String.data_append] at hd
  exact String.ext (List.append_cancel_left hd)

theorem sigv4AuthValue_time_injective (creds : Credentials) (region service : String)
    (req : HttpRequest) (t1 t2 : Nat)
    (h : sigv4AuthValue creds region service req t1 = sigv4AuthValue creds region service req t2) :
    t1 = t2 := by
  unfold sigv4AuthValue at h
  have h1 := string_append_left_cancel h
  unfold sigv4Signature at h1
  exact amzDateString_injective (string_append_left_cancel h1)

/-- Merging a header list by setHeader leaves the URL, method and body of
the request untouched. -/
theorem foldl_setHeader_preserves (hs : List (String × String)) (req : FetchRequest) :
    (hs.foldl (fun r kv => r.setHeader kv.1 kv.2) req).url = req.url
    ∧ (hs.foldl (fun r kv => r.setHeader kv.1 kv.2) req).method = req.method
    ∧ (hs.foldl (fun r kv => r.setHeader kv.1 kv.2) req).body = req.body := by
  induction hs generalizing req with
  | nil => exact ⟨rfl, rfl, rfl⟩
  | cons a t ih =>
    simpa [List.foldl_cons, FetchRequest.setHeader] using ih (req.setHeader a.1 a.2)

/-- Merging a header list by setHeader does not change a header whose
(lowercased) name is not among the merged names. -/
theorem foldl_setHeader_not_mem (hs : List (String × String)) (req : FetchRequest)
    (k : String) (h : k ∉ hs.map (fun kv => lowerString kv.1)) :
    ((hs.foldl (fun r kv => r.setHeader kv.1 kv.2) req).headers) k = req.headers k := by
  induction hs generalizing req with
  | nil => rfl
  | cons a t ih =>
    simp only [List.map_cons, List.mem_cons, not_or] at h
    simp only [List.foldl_cons]
    rw [ih (req.setHeader a.1 a.2) h.2]
    simp [FetchRequest.setHeader, h.1]

/-- Merging a header list with pairwise distinct lowercased names stores,
for every merged pair, exactly its value. -/
theorem foldl_setHeader_mem (hs : List (String × String)) (req : FetchRequest)
    (hnodup : (hs.map (fun kv => lowerString kv.1)).Nodup)
    (kv : String × String) (hmem : kv ∈ hs) :
    ((hs.foldl (fun r kv => r.setHeader kv.1 kv.2) req).headers) (lowerString kv.1) = some kv.2 := by
  induction hs generalizing req with
  | nil => cases hmem
  | cons a t ih =>
    simp only [List.map_cons, List.nodup_cons] at hnodup
    rcases List.mem_cons.mp hmem with heq | hmem'
    · subst heq
      simp only [List.foldl_cons]
      rw [foldl_setHeader_not_mem t (req.setHeader kv.1 kv.2) (lowerString kv.1) hnodup.1]
      simp [FetchRequest.setHeader]
    · simp only [List.foldl_cons]
      exact ih (req.setHeader a.1 a.2) hnodup.2 hmem'

/-- The preflight hook leaves the URL, method and body of the request
untouched. -/
theorem preflightFunc_preserves (credentials : Credentials) (nodeRegion : String)
    (req : FetchRequest) (now : Nat) :
    (preflightFunc credentials nodeRegion req now).url = req.url
    ∧ (preflightFunc credentials nodeRegion req now).method = req.method
    ∧ (preflightFunc credentials nodeRegion req now).body = req.body :=
  foldl_setHeader_preserves _ req

/-- The signed header set reads only the URL, the method and the body of
the FetchRequest. -/
theorem signedAwsHeaders_congr (credentials : Credentials) (nodeRegion : String)
    (req1 req2 : FetchRequest) (now : Nat) (hu : req1.url = req2.url)
    (hm : req1.method = req2.method) (hb : req1.body = req2.body) :
    signedAwsHeaders credentials nodeRegion req1 now
      = signedAwsHeaders credentials nodeRegion req2 now := by
  unfold signedAwsHeaders requestOptionsOf
  rw [hu, hm, hb]

/-- The names of the signed headers, in order, with the session-token
header present exactly when the credentials carry a session token. -/
theorem signedAwsHeaders_names (credentials : Credentials) (nodeRegion : String)
    (req : FetchRequest) (now : Nat) :
    (signedAwsHeaders credentials nodeRegion req now).map (fun kv => kv.1)
      = ["host", "x-amz-date", "x-amz-content-sha256", "authorization"]
        ++ (match credentials.sessionToken with
            | some _ => ["x-amz-security-token"]
            | none => []) := by
  unfold signedAwsHeaders sigv4Sign requestOptionsOf
  cases credentials.sessionToken <;> rfl

/-- The lowercased signed header names are pairwise distinct. -/
theorem signedAwsHeaders_names_nodup (credentials : Credentials) (nodeRegion : String)
    (req : FetchRequest) (now : Nat) :
    ((signedAwsHeaders credentials nodeRegion req now).map (fun kv => lowerString kv.1)).Nodup := by
  have h : (signedAwsHeaders credentials nodeRegion req now).map (fun kv => lowerString kv.1)
      = ((signedAwsHeaders credentials nodeRegion req now).map (fun kv => kv.1)).map
          lowerString := by
    simp [List.map_map]
  rw [h, signedAwsHeaders_names]
  cases credentials.sessionToken with
  | none => decide
  | some tok =>
    exact (by decide :
      (List.map lowerString
        (["host", "x-amz-date", "x-amz-content-sha256", "authorization"]
          ++ ["x-amz-security-token"])).Nodup)

/-- The community-node lookup produces an error for every network. -/
theorem communityLookup_error (net : Network) :
    ∃ e, getCommunityAmbNodeProps net = .error e := by
  rw [getCommunityAmbNodeProps]
  split <;> exact ⟨_, rfl⟩

/-- A successfully constructed provider carries either the explicitly
supplied credentials or the environment-discovered ones. -/
theorem constructAws_ok_credentials (props : AwsProviderProps) (env : Option Credentials)
    (s : AwsProviderState) (h : constructAws props env = .ok s) :
    (∃ c, props.credentials = some c ∧ s.credentials = c)
    ∨ (props.credentials = none ∧ env = some s.credentials) := by
  unfold constructAws at h
  cases hc : props.credentials with
  | some c =>
    rw [hc] at h
    simp only [Bind.bind, Except.bind, pure, Except.pure] at h
    repeat' split at h
    all_goals simp_all
    all_goals (subst h; rfl)
  | none =>
    rw [hc] at h
    cases henv : env with
    | some e =>
      rw [henv] at h
      simp only [Bind.bind, Except.bind, pure, Except.pure, getDefaultAwsCredentials] at h
      repeat' split at h
      all_goals simp_all
      all_goals (subst h; rfl)
    | none =>
      rw [henv] at h
      simp only [Bind.bind, Except.bind, pure, Except.pure, getDefaultAwsCredentials] at h
      repeat' split at h
      all_goals simp_all

/-- When network normalization fails, construction fails with that
error. -/
theorem constructAws_network_error (props : AwsProviderProps) (env : Option Credentials)
    (e : AwsError)
    (hn : Network.fromNetworkish (props.network.getD (.name "mainnet")) = .error e) :
    constructAws props env = .error e := by
  unfold constructAws
  simp [Bind.bind, Except.bind, hn]

/-- Closed form of construction with explicit truthy node coordinates and
explicit credentials: it succeeds and records exactly those inputs and
the endpoint-builder URL. -/
theorem constructAws_explicit (nid nreg : String) (h1 : nid ≠ "") (h2 : nreg ≠ "")
    (bt : Option String) (nw : Option Networkish) (c : Credentials)
    (env : Option Credentials) (net : Network)
    (hn : Network.fromNetworkish (nw.getD (.name "mainnet")) = .ok net) :
    constructAws ⟨some nid, some nreg, bt, nw, some c⟩ env =
      .ok { nodeRegion := nreg, nodeId := nid,
            nodeHttpEndpoint := getAmbNodeUrl nid nreg bt,
            credentials := c, network := net } := by
  unfold constructAws
  have ht1 : truthy (some nid) = true := by simp [truthy, h1]
  have ht2 : truthy (some nreg) = true := by simp [truthy, h2]
  simp [Bind.bind, Except.bind, pure, Except.pure, hn, ht1, ht2,
    getFetchRequest, FetchRequest.new]

/-- When both node coordinates are truthy, a successful construction
records them verbatim. -/
theorem constructAws_ok_nodeCoords (props : AwsProviderProps) (env : Option Credentials)
    (s : AwsProviderState) (h : constructAws props env = .ok s)
    (ht1 : truthy props.nodeId = true) (ht2 : truthy props.nodeRegion = true) :
    s.nodeId = props.nodeId.getD "" ∧ s.nodeRegion = props.nodeRegion.getD "" := by
  unfold constructAws at h
  simp only [Bind.bind, Except.bind, pure, Except.pure, ht1, ht2] at h
  repeat' split at h
  all_goals simp_all
  all_goals (subst h; exact ⟨rfl, rfl⟩)

/-- A registry hit for a chain id carries that chain id. -/
theorem fromNetworkish_chainId (ch : Nat) (net : Network)
    (h : Network.fromNetworkish (.chainId ch) = .ok net) : net.chainId = ch := by
  simp only [Network.fromNetworkish] at h
  cases hf : networkRegistry.find? (fun n => n.chainId = ch) with
  | none => rw [hf] at h; cases h
  | some n =>
    rw [hf] at h
    cases h
    simpa using List.find?_some hf

/-- The lowercased signed header names form a fixed list independent of
the request and the signing time. -/
theorem signedAwsHeaders_lowerNames (credentials : Credentials) (nodeRegion : String)
    (req : FetchRequest) (now : Nat) :
    (signedAwsHeaders credentials nodeRegion req now).map (fun kv => lowerString kv.1)
      = ["host", "x-amz-date", "x-amz-content-sha256", "authorization"]
        ++ (match credentials.sessionToken with
            | some _ => ["x-amz-security-token"]
            | none => []) := by
  have h : (signedAwsHeaders credentials nodeRegion req now).map (fun kv => lowerString kv.1)
      = ((signedAwsHeaders credentials nodeRegion req now).map (fun kv => kv.1)).map
          lowerString := by
    simp [List.map_map]
  rw [h, signedAwsHeaders_names]
  cases credentials.sessionToken with
  | none => decide
  | some tok =>
    exact (by decide :
      List.map lowerString
          (["host", "x-amz-date", "x-amz-content-sha256", "authorization"]
            ++ ["x-amz-security-token"])
        = ["host", "x-amz-date", "x-amz-content-sha256", "authorization"]
            ++ ["x-amz-security-token"])

/-! ### Claim theorems -/

/-- C1: for every network name in the enumerated set (mainnet, goerli,
matic, matic-mumbai) the community-node lookup fails with the
"no community node found" argument error naming that network; for every
name outside the set it fails with the distinct "Unsupported network"
error; the function never returns a NodeLocation. -/
theorem C1_communityNodeLookup_alwaysFails (network : Network) :
    (network.name ∈ ["mainnet", "goerli", "matic", "matic-mumbai"] →
      getCommunityAmbNodeProps network = .error (.argument
        "No Amazon Managed Blockchain community node found for network"
        "network.name" network.name))
    ∧ (network.name ∉ ["mainnet", "goerli", "matic", "matic-mumbai"] →
      getCommunityAmbNodeProps network = .error (.argument
        "Unsupported network" "network.name" network.name))
    ∧ ∀ loc : NodeLocation, getCommunityAmbNodeProps network ≠ .ok loc := by
  refine ⟨?_, ?_, ?_⟩
  · intro h
    simp only [List.mem_cons, List.not_mem_nil, or_false] at h
    rcases h with h | h | h | h <;> (rw [getCommunityAmbNodeProps, h]; exact rfl)
  · intro h
    rw [getCommunityAmbNodeProps]
    split <;> simp_all
  · intro loc
    rw [getCommunityAmbNodeProps]
    split <;> simp

/-- C1 witness: the theorem applied to the mainnet network and to a
non-enumerated network. -/
theorem C1_communityNodeLookup_alwaysFails_witness :
    getCommunityAmbNodeProps ⟨"mainnet", 1⟩ = .error (.argument
      "No Amazon Managed Blockchain community node found for network"
      "network.name" "mainnet")
    ∧ getCommunityAmbNodeProps ⟨"sepolia", 11155111⟩ = .error (.argument
      "Unsupported network" "network.name" "sepolia") :=
  ⟨(C1_communityNodeLookup_alwaysFails ⟨"mainnet", 1⟩).1 (by decide),
   (C1_communityNodeLookup_alwaysFails ⟨"sepolia", 11155111⟩).2.1 (by decide)⟩

/-- C4 counterexample: a billing token that is supplied but empty is
falsy, so nothing is appended — the URL is not the base URL with the
query prefix appended. -/
theorem C4_emptyBillingToken_counterexample :
    getAmbNodeUrl "abc" "us-east-1" (some "") =
      "https://abc.ethereum.managedblockchain.us-east-1.amazonaws.com"
    ∧ getAmbNodeUrl "abc" "us-east-1" (some "") ≠
      "https://abc.ethereum.managedblockchain.us-east-1.amazonaws.com"
        ++ "?billingToken=" := by
  exact ⟨rfl, by decide⟩

/-- C4 (amended): the endpoint builder returns exactly the template URL,
and when a non-empty billingToken is supplied the same URL is returned
with the billingToken query appended verbatim exactly once. -/
theorem C4_endpointBuilder_template (nodeId nodeRegion tok : String) (h : tok ≠ "") :
    getAmbNodeUrl nodeId nodeRegion none
      = "https://" ++ nodeId ++ ".ethereum.managedblockchain." ++ nodeRegion
        ++ ".amazonaws.com"
    ∧ getAmbNodeUrl nodeId nodeRegion (some tok)
      = getAmbNodeUrl nodeId nodeRegion none ++ "?billingToken=" ++ tok := by
  constructor
  · rfl
  · simp [getAmbNodeUrl, truthy, h]

/-- C4 witness: the amended theorem applied at the spec's example
inputs. -/
theorem C4_endpointBuilder_template_witness :
    getAmbNodeUrl "abc" "us-east-1" none
      = "https://" ++ "abc" ++ ".ethereum.managedblockchain." ++ "us-east-1"
        ++ ".amazonaws.com"
    ∧ getAmbNodeUrl "abc" "us-east-1" (some "tok")
      = getAmbNodeUrl "abc" "us-east-1" none ++ "?billingToken=" ++ "tok" :=
  C4_endpointBuilder_template "abc" "us-east-1" "tok" (by decide)

/-- C9: the endpoint builder tests the billing token for truthiness, not
presence — an empty supplied token yields the same URL as an absent one,
and only a non-empty token appends the query string. -/
theorem C9_billingToken_truthiness (nodeId nodeRegion : String) :
    getAmbNodeUrl nodeId nodeRegion (some "") = getAmbNodeUrl nodeId nodeRegion none
    ∧ ∀ tok : String, tok ≠ "" →
      getAmbNodeUrl nodeId nodeRegion (some tok)
        = getAmbNodeUrl nodeId nodeRegion none ++ "?billingToken=" ++ tok := by
  constructor
  · rfl
  · intro tok h
    simp [getAmbNodeUrl, truthy, h]

/-- C9 witness: the theorem applied at concrete inputs. -/
theorem C9_billingToken_truthiness_witness :
    getAmbNodeUrl "n1" "r1" (some "") = getAmbNodeUrl "n1" "r1" none
    ∧ getAmbNodeUrl "n1" "r1" (some "tok")
      = getAmbNodeUrl "n1" "r1" none ++ "?billingToken=" ++ "tok" :=
  ⟨(C9_billingToken_truthiness "n1" "r1").1,
   (C9_billingToken_truthiness "n1" "r1").2 "tok" (by decide)⟩

/-- C3: explicit credentials are used unchanged with no environment
lookup and no validation; absent credentials are discovered from the
ambient environment; when discovery yields nothing, construction fails
with the credentials-not-found error whose message points at the
environment-configuration documentation. -/
theorem C3_credentialResolution (props : AwsProviderProps) (env env2 : Option Credentials)
    (c : Credentials) :
    (props.credentials = some c →
      constructAws props env = constructAws props env2
      ∧ ∀ s, constructAws props env = .ok s → s.credentials = c)
    ∧ (props.credentials = none →
      (∀ e, env = some e → ∀ s, constructAws props env = .ok s → s.credentials = e)
      ∧ (env = none → truthy props.nodeId = true → truthy props.nodeRegion = true →
          (∃ net, Network.fromNetworkish (props.network.getD (.name "mainnet")) = .ok net) →
          constructAws props env = .error (.generic awsCredentialsNotFoundMessage)))
    ∧ getDefaultAwsCredentials (some c) = .ok c
    ∧ getDefaultAwsCredentials none = .error (.generic awsCredentialsNotFoundMessage)
    ∧ (∃ pre : String, awsCredentialsNotFoundMessage = pre ++
        "https://docs.aws.amazon.com/sdk-for-javascript/v2/developer-guide/setting-credentials-node.html")
    ∧ (∃ a b : String, awsCredentialsNotFoundMessage = a ++ "Credentials not found" ++ b) := by
  refine ⟨?_, ?_, rfl, rfl, ?_, ?_⟩
  · intro hc
    constructor
    · simp only [constructAws, hc]
    · intro s hok
      rcases constructAws_ok_credentials props env s hok with ⟨c2, hc2, hcred⟩ | ⟨hnone, _⟩
      · rw [hc] at hc2
        cases hc2
        exact hcred
      · rw [hc] at hnone
        cases hnone
  · intro hc
    constructor
    · intro e henv s hok
      rcases constructAws_ok_credentials props env s hok with ⟨c2, hc2, _⟩ | ⟨_, henv2⟩
      · rw [hc] at hc2
        cases hc2
      · rw [henv] at henv2
        exact (Option.some.inj henv2).symm
    · intro henv ht1 ht2 hnet
      obtain ⟨net, hn⟩ := hnet
      subst henv
      unfold constructAws
      simp [Bind.bind, Except.bind, pure, Except.pure, hn, ht1, ht2, hc, getDefaultAwsCredentials]
  · exact ⟨"AWS Credentials not found by the AWS SDK. To learn how to set AWS credentials "
      ++ "for your environment, please visit ", rfl⟩
  · exact ⟨"AWS ", " by the AWS SDK. To learn how to set AWS credentials "
      ++ "for your environment, please visit "
      ++ "https://docs.aws.amazon.com/sdk-for-javascript/v2/developer-guide/setting-credentials-node.html",
      rfl⟩

/-- C3 witness: explicit credentials make construction independent of the
environment, and empty discovery yields the documented error. -/
theorem C3_credentialResolution_witness :
    constructAws ⟨some "n", some "r", none, none, some ⟨"ak", "sk", none⟩⟩
        (some ⟨"ek", "es", none⟩)
      = constructAws ⟨some "n", some "r", none, none, some ⟨"ak", "sk", none⟩⟩ none
    ∧ getDefaultAwsCredentials none = .error (.generic awsCredentialsNotFoundMessage) :=
  ⟨((C3_credentialResolution ⟨some "n", some "r", none, none, some ⟨"ak", "sk", none⟩⟩
      (some ⟨"ek", "es", none⟩) none ⟨"ak", "sk", none⟩).1 rfl).1,
   (C3_credentialResolution ⟨some "n", some "r", none, none, some ⟨"ak", "sk", none⟩⟩
      (some ⟨"ek", "es", none⟩) none ⟨"ak", "sk", none⟩).2.2.2.1⟩

/-- C8: construction with explicit node coordinates and credentials and
no network succeeds, defaults the network to mainnet, and records the
inputs and the endpoint-builder URL in the aws attribute. -/
theorem C8_constructExplicitRecordsState (nodeId nodeRegion : String) (c : Credentials)
    (env : Option Credentials) (h1 : nodeId ≠ "") (h2 : nodeRegion ≠ "") :
    constructAws ⟨some nodeId, some nodeRegion, none, none, some c⟩ env =
      .ok { nodeRegion := nodeRegion, nodeId := nodeId,
            nodeHttpEndpoint := getAmbNodeUrl nodeId nodeRegion none,
            credentials := c, network := ⟨"mainnet", 1⟩ } :=
  constructAws_explicit nodeId nodeRegion h1 h2 none none c env ⟨"mainnet", 1⟩ rfl

/-- C8 witness: the spec's end-to-end example, with the concrete endpoint
URL. -/
theorem C8_constructExplicitRecordsState_witness :
    constructAws ⟨some "n1", some "r1", none, none, some ⟨"ak", "sk", none⟩⟩ none =
      .ok { nodeRegion := "r1", nodeId := "n1",
            nodeHttpEndpoint := "https://n1.ethereum.managedblockchain.r1.amazonaws.com",
            credentials := ⟨"ak", "sk", none⟩, network := ⟨"mainnet", 1⟩ } :=
  C8_constructExplicitRecordsState "n1" "r1" ⟨"ak", "sk", none⟩ none
    (by decide) (by decide)

/-- C2 counterexample: with nodeId and nodeRegion both present (two empty
strings are present values), the constructor still delegates to the
community-node lookup — its error surfaces — contradicting that
delegation happens only when both are absent. -/
theorem C2_presence_counterexample :
    constructAws ⟨some "", some "", none, none, some ⟨"ak", "sk", none⟩⟩ none
      = .error (.argument "No Amazon Managed Blockchain community node found for network"
          "network.name" "mainnet")
    ∧ (some "" : Option String) ≠ none := ⟨rfl, by decide⟩

/-- C2 (amended): the constructor checks the node coordinates by
JavaScript truthiness — a falsy (absent or empty) nodeId with a truthy
nodeRegion raises the mismatch ArgumentError, a truthy nodeId with a
falsy nodeRegion raises the other mismatch ArgumentError, both
independent of the environment and credentials; only when both are falsy
does it delegate to the community-node lookup; when both are truthy the
recorded coordinates are the inputs. -/
theorem C2_nodeCoordinates_truthiness (props : AwsProviderProps) (env : Option Credentials)
    (net : Network)
    (hn : Network.fromNetworkish (props.network.getD (.name "mainnet")) = .ok net) :
    (truthy props.nodeId = false → truthy props.nodeRegion = true →
      constructAws props env = .error (.argument "nodeId required with nodeRegion" "nodeId"
        (props.nodeId.getD "")))
    ∧ (truthy props.nodeId = true → truthy props.nodeRegion = false →
      constructAws props env = .error (.argument "nodeRegion required with nodeId" "nodeRegion"
        (props.nodeRegion.getD "")))
    ∧ (truthy props.nodeId = false → truthy props.nodeRegion = false →
      ∃ e, getCommunityAmbNodeProps net = .error e ∧ constructAws props env = .error e)
    ∧ (truthy props.nodeId = true → truthy props.nodeRegion = true →
      ∀ s, constructAws props env = .ok s →
        s.nodeId = props.nodeId.getD "" ∧ s.nodeRegion = props.nodeRegion.getD "") := by
  refine ⟨?_, ?_, ?_, ?_⟩
  · intro hf ht
    unfold constructAws
    simp [Bind.bind, Except.bind, hn, hf, ht]
  · intro ht hf
    unfold constructAws
    simp [Bind.bind, Except.bind, hn, ht, hf]
  · intro hf1 hf2
    obtain ⟨e, he⟩ := communityLookup_error net
    refine ⟨e, he, ?_⟩
    unfold constructAws
    simp [Bind.bind, Except.bind, hn, hf1, hf2, he]
  · intro ht1 ht2 s hok
    exact constructAws_ok_nodeCoords props env s hok ht1 ht2

/-- C2 witness: the amended theorem applied to an absent nodeId with a
present nodeRegion. -/
theorem C2_nodeCoordinates_truthiness_witness :
    constructAws ⟨none, some "r1", none, none, some ⟨"ak", "sk", none⟩⟩ none
      = .error (.argument "nodeId required with nodeRegion" "nodeId" "") :=
  (C2_nodeCoordinates_truthiness ⟨none, some "r1", none, none, some ⟨"ak", "sk", none⟩⟩
    none ⟨"mainnet", 1⟩ rfl).1 rfl rfl

/-- C7: deriving a provider for a chain id reuses this instance's node
coordinates and credentials and targets the requested chain; if the
derived construction fails, the method falls back to the base transport's
generic provider instead of propagating. -/
theorem C7_deriveForChain (state : AwsProviderState) (env : Option Credentials)
    (chainId : Nat) (h1 : state.nodeId ≠ "") (h2 : state.nodeRegion ≠ "") :
    (∀ s, getProviderForChain state env chainId = .aws s →
      s.nodeId = state.nodeId ∧ s.nodeRegion = state.nodeRegion
        ∧ s.credentials = state.credentials ∧ s.network.chainId = chainId)
    ∧ (∀ e, constructAws ⟨some state.nodeId, some state.nodeRegion, none,
          some (.chainId chainId), some state.credentials⟩ env = .error e →
        getProviderForChain state env chainId = .fallback chainId) := by
  constructor
  · intro s hs
    unfold getProviderForChain at hs
    cases hcon : constructAws ⟨some state.nodeId, some state.nodeRegion, none,
        some (.chainId chainId), some state.credentials⟩ env with
    | error e =>
      rw [hcon] at hs
      cases hs
    | ok s2 =>
      rw [hcon] at hs
      cases hs
      cases hn : Network.fromNetworkish (.chainId chainId) with
      | error e =>
        have herr := constructAws_network_error
          ⟨some state.nodeId, some state.nodeRegion, none,
            some (.chainId chainId), some state.credentials⟩ env e (by simpa using hn)
        rw [herr] at hcon
        cases hcon
      | ok net =>
        have hex := constructAws_explicit state.nodeId state.nodeRegion h1 h2 none
          (some (.chainId chainId)) state.credentials env net (by simpa using hn)
        rw [hex] at hcon
        cases hcon
        exact ⟨rfl, rfl, rfl, fromNetworkish_chainId chainId net hn⟩
  · intro e he
    unfold getProviderForChain
    rw [he]

/-- C7 witness: deriving for matic (chain 137) from a mainnet provider
yields a provider with the same node coordinates and credentials on
chain 137. -/
theorem C7_deriveForChain_witness :
    (⟨"r1", "n1", "https://n1.ethereum.managedblockchain.r1.amazonaws.com",
        ⟨"ak", "sk", none⟩, ⟨"matic", 137⟩⟩ : AwsProviderState).nodeId = "n1"
    ∧ (⟨"r1", "n1", "https://n1.ethereum.managedblockchain.r1.amazonaws.com",
        ⟨"ak", "sk", none⟩, ⟨"matic", 137⟩⟩ : AwsProviderState).nodeRegion = "r1"
    ∧ (⟨"r1", "n1", "https://n1.ethereum.managedblockchain.r1.amazonaws.com",
        ⟨"ak", "sk", none⟩, ⟨"matic", 137⟩⟩ : AwsProviderState).credentials
        = ⟨"ak", "sk", none⟩
    ∧ (⟨"r1", "n1", "https://n1.ethereum.managedblockchain.r1.amazonaws.com",
        ⟨"ak", "sk", none⟩, ⟨"matic", 137⟩⟩ : AwsProviderState).network.chainId = 137 :=
  (C7_deriveForChain
    ⟨"r1", "n1", "https://n1.ethereum.managedblockchain.r1.amazonaws.com",
      ⟨"ak", "sk", none⟩, ⟨"mainnet", 1⟩⟩ none 137 (by decide) (by decide)).1
    ⟨"r1", "n1", "https://n1.ethereum.managedblockchain.r1.amazonaws.com",
      ⟨"ak", "sk", none⟩, ⟨"matic", 137⟩⟩ rfl

/-- C5: the preflight hook installed by getFetchRequest modifies only the
headers returned by the signing step — every other header keeps its prior
value, colliding names take the signer's value — and invoking the hook
twice leaves all non-signature headers unchanged while replacing only the
signature-related headers (whose name set is unchanged on the re-signed
request). -/
theorem C5_preflightModifiesOnlySignedHeaders (credentials : Credentials)
    (nodeRegion : String) (req : FetchRequest) (now now2 : Nat) :
    (∀ nid bt, (getFetchRequest credentials nid nodeRegion bt).preflight
      = preflightFunc credentials nodeRegion)
    ∧ (∀ name, name ∉ (signedAwsHeaders credentials nodeRegion req now).map
          (fun kv => lowerString kv.1) →
        (preflightFunc credentials nodeRegion req now).headers name = req.headers name)
    ∧ (∀ kv ∈ signedAwsHeaders credentials nodeRegion req now,
        (preflightFunc credentials nodeRegion req now).headers (lowerString kv.1)
          = some kv.2)
    ∧ (signedAwsHeaders credentials nodeRegion
          (preflightFunc credentials nodeRegion req now) now2
        = signedAwsHeaders credentials nodeRegion req now2)
    ∧ (∀ name, name ∉ (signedAwsHeaders credentials nodeRegion req now).map
          (fun kv => lowerString kv.1) →
        (preflightFunc credentials nodeRegion
            (preflightFunc credentials nodeRegion req now) now2).headers name
          = req.headers name)
    ∧ (∀ kv ∈ signedAwsHeaders credentials nodeRegion req now2,
        (preflightFunc credentials nodeRegion
            (preflightFunc credentials nodeRegion req now) now2).headers (lowerString kv.1)
          = some kv.2) := by
  obtain ⟨hu, hm, hb⟩ := preflightFunc_preserves credentials nodeRegion req now
  have hcongr : signedAwsHeaders credentials nodeRegion
      (preflightFunc credentials nodeRegion req now) now2
      = signedAwsHeaders credentials nodeRegion req now2 :=
    signedAwsHeaders_congr credentials nodeRegion _ req now2 hu hm hb
  refine ⟨fun _ _ => rfl, ?_, ?_, hcongr, ?_, ?_⟩
  · intro name h
    exact foldl_setHeader_not_mem _ req name h
  · intro kv hkv
    exact foldl_setHeader_mem _ req
      (signedAwsHeaders_names_nodup credentials nodeRegion req now) kv hkv
  · intro name h
    have h2 : name ∉ (signedAwsHeaders credentials nodeRegion
        (preflightFunc credentials nodeRegion req now) now2).map
          (fun kv => lowerString kv.1) := by
      rw [signedAwsHeaders_lowerNames]
      rw [signedAwsHeaders_lowerNames] at h
      exact h
    have step1 : (preflightFunc credentials nodeRegion
        (preflightFunc credentials nodeRegion req now) now2).headers name
        = (preflightFunc credentials nodeRegion req now).headers name :=
      foldl_setHeader_not_mem _ _ name h2
    rw [step1]
    exact foldl_setHeader_not_mem _ req name h
  · intro kv hkv
    rw [← hcongr] at hkv
    exact foldl_setHeader_mem _ (preflightFunc credentials nodeRegion req now)
      (signedAwsHeaders_names_nodup credentials nodeRegion _ now2) kv hkv

/-- C5 witness: a request carrying a content-type header keeps it across
two invocations of the hook, while the authorization header carries the
second signature. -/
theorem C5_preflightModifiesOnlySignedHeaders_witness :
    ("content-type" ∉ (signedAwsHeaders ⟨"ak", "sk", none⟩ "r1" sampleRequest 0).map
        (fun kv => lowerString kv.1)
      ∧ (preflightFunc ⟨"ak", "sk", none⟩ "r1"
          (preflightFunc ⟨"ak", "sk", none⟩ "r1" sampleRequest 0) 1).headers "content-type"
        = sampleRequest.headers "content-type")
    ∧ (("authorization", sigv4AuthValue ⟨"ak", "sk", none⟩ "r1" "managedblockchain"
          (requestOptionsOf sampleRequest) 1)
        ∈ signedAwsHeaders ⟨"ak", "sk", none⟩ "r1" sampleRequest 1
      ∧ (preflightFunc ⟨"ak", "sk", none⟩ "r1"
          (preflightFunc ⟨"ak", "sk", none⟩ "r1" sampleRequest 0) 1).headers
            (lowerString "authorization")
        = some (sigv4AuthValue ⟨"ak", "sk", none⟩ "r1" "managedblockchain"
            (requestOptionsOf sampleRequest) 1)) := by
  have hmem : ("authorization", sigv4AuthValue ⟨"ak", "sk", none⟩ "r1" "managedblockchain"
      (requestOptionsOf sampleRequest) 1)
      ∈ signedAwsHeaders ⟨"ak", "sk", none⟩ "r1" sampleRequest 1 := by
    unfold signedAwsHeaders sigv4Sign
    simp
  have hnot : "content-type" ∉ (signedAwsHeaders ⟨"ak", "sk", none⟩ "r1" sampleRequest 0).map
      (fun kv => lowerString kv.1) := by
    rw [signedAwsHeaders_lowerNames]
    decide
  exact ⟨⟨hnot,
      (C5_preflightModifiesOnlySignedHeaders ⟨"ak", "sk", none⟩ "r1" sampleRequest 0 1).2.2.2.2.1
        "content-type" hnot⟩,
    ⟨hmem,
      (C5_preflightModifiesOnlySignedHeaders ⟨"ak", "sk", none⟩ "r1" sampleRequest 0 1).2.2.2.2.2
        _ hmem⟩⟩

/-- C6: the signing transform is deterministic in header names — the name
set is the same for any two signing instants — but the authorization
header value differs whenever the signing timestamps differ: signatures
are time-bound. -/
theorem C6_signingTimeBound (credentials : Credentials) (nodeRegion : String)
    (req : FetchRequest) (t1 t2 : Nat) :
    (signedAwsHeaders credentials nodeRegion req t1).map (fun kv => kv.1)
      = (signedAwsHeaders credentials nodeRegion req t2).map (fun kv => kv.1)
    ∧ ("authorization", sigv4AuthValue credentials nodeRegion "managedblockchain"
        (requestOptionsOf req) t1) ∈ signedAwsHeaders credentials nodeRegion req t1
    ∧ (preflightFunc credentials nodeRegion req t1).headers "authorization"
        = some (sigv4AuthValue credentials nodeRegion "managedblockchain"
            (requestOptionsOf req) t1)
    ∧ (t1 ≠ t2 →
      sigv4AuthValue credentials nodeRegion "managedblockchain" (requestOptionsOf req) t1
        ≠ sigv4AuthValue credentials nodeRegion "managedblockchain" (requestOptionsOf req) t2) := by
  refine ⟨?_, ?_, ?_, ?_⟩
  · rw [signedAwsHeaders_names, signedAwsHeaders_names]
  · unfold signedAwsHeaders sigv4Sign
    simp
  · have hmem : ("authorization", sigv4AuthValue credentials nodeRegion "managedblockchain"
        (requestOptionsOf req) t1) ∈ signedAwsHeaders credentials nodeRegion req t1 := by
      unfold signedAwsHeaders sigv4Sign
      simp
    exact foldl_setHeader_mem _ req
      (signedAwsHeaders_names_nodup credentials nodeRegion req t1) _ hmem
  · intro hne h
    exact hne (sigv4AuthValue_time_injective credentials nodeRegion "managedblockchain"
      (requestOptionsOf req) t1 t2 h)

/-- C6 witness: two distinct signing instants give distinct authorization
values for the same request. -/
theorem C6_signingTimeBound_witness :
    sigv4AuthValue ⟨"ak", "sk", none⟩ "r1" "managedblockchain"
        (requestOptionsOf sampleRequest) 0
      ≠ sigv4AuthValue ⟨"ak", "sk", none⟩ "r1" "managedblockchain"
        (requestOptionsOf sampleRequest) 1 :=
  (C6_signingTimeBound ⟨"ak", "sk", none⟩ "r1" sampleRequest 0 1).2.2.2 (by decide)

/-- C10: the canonical request handed to the signer is built only from
the request's URL, method and body, with a host header derived from the
URL — so two requests that differ only in their pre-existing headers
receive identical signed header sets. -/
theorem C10_signatureIgnoresExistingHeaders (credentials : Credentials)
    (nodeRegion : String) (req1 req2 : FetchRequest) (now : Nat)
    (hu : req1.url = req2.url) (hm : req1.method = req2.method)
    (hb : req1.body = req2.body) :
    requestOptionsOf req1 = requestOptionsOf req2
    ∧ (requestOptionsOf req1).headers = [("host", (parseUrl req1.url).host)]
    ∧ signedAwsHeaders credentials nodeRegion req1 now
        = signedAwsHeaders credentials nodeRegion req2 now := by
  refine ⟨?_, rfl, signedAwsHeaders_congr credentials nodeRegion req1 req2 now hu hm hb⟩
  unfold requestOptionsOf
  rw [hu, hm, hb]

/-- C10 witness: the two sample requests differ only in headers and
receive identical signed header sets. -/
theorem C10_signatureIgnoresExistingHeaders_witness :
    signedAwsHeaders ⟨"ak", "sk", none⟩ "r1" sampleRequest 5
      = signedAwsHeaders ⟨"ak", "sk", none⟩ "r1" sampleRequestOtherHeaders 5 :=
  (C10_signatureIgnoresExistingHeaders ⟨"ak", "sk", none⟩ "r1"
    sampleRequest sampleRequestOtherHeaders 5 rfl rfl rfl).2.2

end AwsSpec
